import Mathlib

/-!
# Verification of the `SettleInvoicing` contract

Shallow embedding of the Solidity contract `SettleInvoicing`
(invoice registry: `registerInvoice`, `payInvoice`, `getInvoice`).

Modelling choices, faithful to the source:
* Addresses are natural numbers; `0` is the zero address (`address(0)`).
* `uint256` values are modelled as `Nat`.  Solidity 0.8 uses checked
  arithmetic, so no wrap-around ever occurs; the only arithmetic in the
  contract is `invoiceCount++`, whose overflow revert is unreachable
  short of resource exhaustion (2^256 registrations) and is not modelled.
* The storage mapping `mapping(uint256 => Invoice)` is a total function
  `Nat → Invoice` defaulting to the all-zero record, exactly as Solidity
  mappings behave.
* Each state-changing entry point returns `Except Err (state, events, calls)`.
  A `require` failure reverts the transaction: the caller observes the
  original state and no events or external calls, which the embedding
  renders by the `Except.error` result carrying nothing.
* The external token is abstracted by an environment
  `env : TransferCall → Bool` giving the boolean result of each
  `transferFrom` invocation; the list of `TransferCall`s produced by an
  operation records exactly which transfers the registry instructed.
-/

abbrev Address := Nat

/-- The `Invoice` struct of the contract. -/
structure Invoice where
  freelancer : Address
  client : Address
  amount : Nat
  dueDate : Nat
  isPaid : Bool
  invoiceURI : String
deriving Repr, DecidableEq

/-- The all-zero record a Solidity mapping returns for an absent key. -/
def Invoice.zero : Invoice :=
  { freelancer := 0, client := 0, amount := 0, dueDate := 0,
    isPaid := false, invoiceURI := "" }

/-- Contract storage: `mapping(uint256 => Invoice) public invoices` and
`uint256 public invoiceCount`. -/
structure SettleState where
  invoices : Nat → Invoice
  invoiceCount : Nat

/-- Storage right after deployment: everything zero. -/
def SettleState.init : SettleState :=
  { invoices := fun _ => Invoice.zero, invoiceCount := 0 }

/-- The events of the contract. -/
inductive Event where
  | InvoiceCreated (id : Nat) (freelancer : Address) (amount : Nat)
  | InvoicePaid (id : Nat) (client : Address)
deriving Repr, DecidableEq

/-- The revert reasons of the contract, one per `require`. -/
inductive Err where
  | AlreadyPaid
  | NotFound
  | TransferRejected
deriving Repr, DecidableEq

/-- One `transferFrom(sender, recipient, amount)` call on the token at
address `token`. -/
structure TransferCall where
  token : Address
  sender : Address
  recipient : Address
  amount : Nat
deriving Repr, DecidableEq

/-- `registerInvoice(_amount, _dueDate, _uri)` called by `sender`.
Increments the counter, stores the fresh record at the new counter value,
emits `InvoiceCreated`, returns the new id.  It has no `require`. -/
def registerInvoice (s : SettleState) (sender : Address)
    (amount dueDate : Nat) (uri : String) :
    SettleState × List Event × Nat :=
  let newCount := s.invoiceCount + 1
  let inv : Invoice :=
    { freelancer := sender, client := 0, amount := amount,
      dueDate := dueDate, isPaid := false, invoiceURI := uri }
  (⟨fun j => if j = newCount then inv else s.invoices j, newCount⟩,
   [Event.InvoiceCreated newCount sender amount], newCount)

/-- The storage state at the instant `payInvoice` performs the external
`transferFrom` call: the two `require`s have passed and the contract has
already set `inv.isPaid = true; inv.client = msg.sender` ("update state
first" in the source). -/
def payMidState (s : SettleState) (sender : Address) (id : Nat) :
    SettleState :=
  ⟨fun j => if j = id then
      { s.invoices id with isPaid := true, client := sender }
    else s.invoices j,
   s.invoiceCount⟩

/-- `payInvoice(_id, _usdcAddress)` called by `sender`, with the token
environment `env` deciding the boolean result of `transferFrom`.
Checks `!inv.isPaid` then `inv.amount > 0`, mutates state, performs the
transfer, requires its success, emits `InvoicePaid`.  An error result is
a revert: the caller's state is the original one and nothing was emitted. -/
def payInvoice (env : TransferCall → Bool) (s : SettleState)
    (sender : Address) (id : Nat) (usdcAddress : Address) :
    Except Err (SettleState × List Event × List TransferCall) :=
  let inv := s.invoices id
  if inv.isPaid then Except.error Err.AlreadyPaid
  else if inv.amount = 0 then Except.error Err.NotFound
  else
    let s' := payMidState s sender id
    let call : TransferCall :=
      { token := usdcAddress, sender := sender,
        recipient := inv.freelancer, amount := inv.amount }
    if env call then
      Except.ok (s', [Event.InvoicePaid id sender], [call])
    else Except.error Err.TransferRejected

/-- `getInvoice(_id)`: a `view` function returning the stored record. -/
def getInvoice (s : SettleState) (id : Nat) : Invoice :=
  s.invoices id

/-- A transaction sent to the contract. -/
inductive Op where
  | register (sender : Address) (amount dueDate : Nat) (uri : String)
  | pay (env : TransferCall → Bool) (sender : Address)
      (id : Nat) (usdcAddress : Address)

/-- Effect of a transaction on storage; a reverted transaction leaves
storage unchanged. -/
def applyOp (s : SettleState) : Op → SettleState
  | Op.register sender a d u => (registerInvoice s sender a d u).1
  | Op.pay env sender id t =>
      match payInvoice env s sender id t with
      | Except.ok (s', _, _) => s'
      | Except.error _ => s

/-- Storage states reachable from deployment by any sequence of
transactions. -/
inductive Reachable : SettleState → Prop
  | init : Reachable SettleState.init
  | step {s : SettleState} (op : Op) : Reachable s → Reachable (applyOp s op)

/-- Invariant: slot `0` and every slot beyond the counter hold the
all-zero record, and a paid invoice has positive amount. -/
def StateInv (s : SettleState) : Prop :=
  (∀ j, (j = 0 ∨ s.invoiceCount < j) → s.invoices j = Invoice.zero) ∧
  (∀ j, (s.invoices j).isPaid = true → 0 < (s.invoices j).amount)

lemma stateInv_init : StateInv SettleState.init := by
  constructor
  · intro j _; rfl
  · intro j h; simp [SettleState.init, Invoice.zero] at h

lemma stateInv_step (s : SettleState) (op : Op) (h : StateInv s) :
    StateInv (applyOp s op) := by
  obtain ⟨hz, hp⟩ := h
  cases op with
  | register sender a d u =>
    simp only [StateInv, applyOp, registerInvoice]
    constructor
    · intro j hj
      have hne : j ≠ s.invoiceCount + 1 := by omega
      simp only [if_neg hne]
      exact hz j (by omega)
    · intro j hj
      by_cases hje : j = s.invoiceCount + 1
      · simp [hje] at hj
      · simp only [if_neg hje] at hj ⊢
        exact hp j hj
  | pay env sender id t =>
    simp only [applyOp, payInvoice]
    by_cases h1 : (s.invoices id).isPaid
    · simp only [h1, if_true]
      exact ⟨hz, hp⟩
    · simp only [h1, Bool.false_eq_true, if_false]
      by_cases h2 : (s.invoices id).amount = 0
      · simp only [h2, if_true]
        exact ⟨hz, hp⟩
      · simp only [h2, if_false]
        by_cases h3 :
            env ⟨t, sender, (s.invoices id).freelancer,
              (s.invoices id).amount⟩ = true
        · simp only [h3, if_true, StateInv, payMidState]
          constructor
          · intro j hj
            by_cases hje : j = id
            · exfalso
              have hzj : s.invoices id = Invoice.zero := hje ▸ hz j hj
              rw [hzj] at h2
              exact h2 rfl
            · simp only [if_neg hje]
              exact hz j hj
          · intro j hj
            by_cases hje : j = id
            · subst hje
              simp only [if_pos rfl]
              exact Nat.pos_of_ne_zero h2
            · simp only [if_neg hje] at hj ⊢
              exact hp j hj
        · simp only [h3, if_false]
          exact ⟨hz, hp⟩

lemma stateInv_of_reachable {s : SettleState} (h : Reachable s) :
    StateInv s := by
  induction h with
  | init => exact stateInv_init
  | step op _ ih => exact stateInv_step _ op ih

/-- Inversion: a successful `payInvoice` run pins down the result state,
the emitted events, the external calls and the preconditions. -/
lemma payInvoice_ok_inv {env : TransferCall → Bool} {s : SettleState}
    {sender : Address} {id : Nat} {t : Address} {s' : SettleState}
    {evs : List Event} {calls : List TransferCall}
    (h : payInvoice env s sender id t = Except.ok (s', evs, calls)) :
    s' = payMidState s sender id ∧
    evs = [Event.InvoicePaid id sender] ∧
    calls = [⟨t, sender, (s.invoices id).freelancer, (s.invoices id).amount⟩] ∧
    (s.invoices id).isPaid = false ∧
    0 < (s.invoices id).amount ∧
    env ⟨t, sender, (s.invoices id).freelancer, (s.invoices id).amount⟩
      = true := by
  simp only [payInvoice] at h
  by_cases h1 : (s.invoices id).isPaid
  · simp [h1] at h
  · simp only [h1, Bool.false_eq_true, if_false] at h
    by_cases h2 : (s.invoices id).amount = 0
    · simp [h2] at h
    · simp only [h2, if_false] at h
      by_cases h3 :
          env ⟨t, sender, (s.invoices id).freelancer,
            (s.invoices id).amount⟩ = true
      · simp only [h3, if_true, Except.ok.injEq, Prod.mk.injEq] at h
        exact ⟨h.1.symm, h.2.1.symm, h.2.2.symm,
          Bool.not_eq_true _ ▸ h1, Nat.pos_of_ne_zero h2, h3⟩
      · simp [h3] at h

/-- `payInvoice` on an already-paid invoice reverts with `AlreadyPaid`,
whatever the caller, token address and token behaviour. -/
lemma payInvoice_already_paid (env : TransferCall → Bool) (s : SettleState)
    (sender : Address) (id : Nat) (t : Address)
    (h : (s.invoices id).isPaid = true) :
    payInvoice env s sender id t = Except.error Err.AlreadyPaid := by
  simp [payInvoice, h]

/-- Marker for registration transactions. -/
def isRegisterOp : Op → Bool
  | Op.register _ _ _ _ => true
  | Op.pay _ _ _ _ => false

/-- The counter grows by one on registration and is untouched by payment
(successful or reverted). -/
lemma invoiceCount_applyOp (s : SettleState) (op : Op) :
    (applyOp s op).invoiceCount =
      s.invoiceCount + (if isRegisterOp op then 1 else 0) := by
  cases op with
  | register sender a d u => rfl
  | pay env sender id t =>
    simp only [applyOp, isRegisterOp, if_false]
    cases hr : payInvoice env s sender id t with
    | error e => simp
    | ok r =>
      obtain ⟨s', evs, calls⟩ := r
      obtain ⟨hs', -, -, -, -, -⟩ := payInvoice_ok_inv hr
      subst hs'
      simp [payMidState]

/-- After any transaction sequence from deployment, the counter equals
the number of registrations performed. -/
lemma invoiceCount_foldl (ops : List Op) (s : SettleState) :
    (ops.foldl applyOp s).invoiceCount =
      s.invoiceCount + ops.countP isRegisterOp := by
  induction ops generalizing s with
  | nil => simp
  | cons op rest ih =>
    simp only [List.foldl_cons, List.countP_cons]
    rw [ih, invoiceCount_applyOp]
    cases op with
    | register sender a d u => simp [isRegisterOp]; omega
    | pay env sender id t => simp [isRegisterOp]

/-- No transaction ever changes the `freelancer`, `amount`, `dueDate` or
`invoiceURI` field of a slot at or below the current counter. -/
lemma immutable_preserved (s : SettleState) (op : Op) (j : Nat)
    (hj : j ≤ s.invoiceCount) :
    ((applyOp s op).invoices j).freelancer = (s.invoices j).freelancer ∧
    ((applyOp s op).invoices j).amount = (s.invoices j).amount ∧
    ((applyOp s op).invoices j).dueDate = (s.invoices j).dueDate ∧
    ((applyOp s op).invoices j).invoiceURI = (s.invoices j).invoiceURI := by
  cases op with
  | register sender a d u =>
    have hne : j ≠ s.invoiceCount + 1 := by omega
    simp [applyOp, registerInvoice, hne]
  | pay env sender id t =>
    simp only [applyOp]
    cases hr : payInvoice env s sender id t with
    | error e => simp
    | ok r =>
      obtain ⟨s', evs, calls⟩ := r
      obtain ⟨hs', -, -, -, -, -⟩ := payInvoice_ok_inv hr
      subst hs'
      by_cases hje : j = id
      · subst hje; simp [payMidState]
      · simp [payMidState, hje]

/-- Once an invoice is paid, it stays paid under every transaction
(starting from a state satisfying the reachability invariant). -/
lemma paid_monotone (s : SettleState) (op : Op) (id : Nat)
    (hs : StateInv s) (h : (s.invoices id).isPaid = true) :
    ((applyOp s op).invoices id).isPaid = true := by
  cases op with
  | register sender a d u =>
    by_cases hje : id = s.invoiceCount + 1
    · exfalso
      have hzero := hs.1 id (Or.inr (by omega))
      rw [hzero] at h
      simp [Invoice.zero] at h
    · simpa [applyOp, registerInvoice, hje] using h
  | pay env sender pid t =>
    simp only [applyOp]
    cases hr : payInvoice env s sender pid t with
    | error e => exact h
    | ok r =>
      obtain ⟨s', evs, calls⟩ := r
      obtain ⟨hs', -, -, -, -, -⟩ := payInvoice_ok_inv hr
      subst hs'
      by_cases hje : id = pid
      · subst hje; simp [payMidState]
      · simpa [payMidState, hje] using h

/-- Created fields and counter survive any whole transaction sequence:
a slot at or below the counter keeps its `freelancer`, `amount`,
`dueDate` and `invoiceURI` forever. -/
lemma immutable_foldl (ops : List Op) (s : SettleState) (j : Nat)
    (hj : j ≤ s.invoiceCount) :
    ((ops.foldl applyOp s).invoices j).freelancer
        = (s.invoices j).freelancer ∧
    ((ops.foldl applyOp s).invoices j).amount = (s.invoices j).amount ∧
    ((ops.foldl applyOp s).invoices j).dueDate = (s.invoices j).dueDate ∧
    ((ops.foldl applyOp s).invoices j).invoiceURI
        = (s.invoices j).invoiceURI := by
  induction ops generalizing s with
  | nil => simp
  | cons op rest ih =>
    simp only [List.foldl_cons]
    have hj' : j ≤ (applyOp s op).invoiceCount := by
      rw [invoiceCount_applyOp]; omega
    obtain ⟨e1, e2, e3, e4⟩ := immutable_preserved s op j hj
    obtain ⟨f1, f2, f3, f4⟩ := ih (applyOp s op) hj'
    exact ⟨f1.trans e1, f2.trans e2, f3.trans e3, f4.trans e4⟩

/-- C1: paying an existing (`amount > 0`) unpaid invoice, with the token
at `t` accepting the `transferFrom`, succeeds: the result state is the
mutated one (`isPaid = true`, `client` = caller), the single external
call moves exactly `amount` from the caller to the stored `freelancer`
on token `t`, and the single emitted event is `InvoicePaid(id, caller)`. -/
theorem pay_success_spec (env : TransferCall → Bool) (s : SettleState)
    (sender : Address) (id : Nat) (t : Address)
    (hUnpaid : (s.invoices id).isPaid = false)
    (hAmt : 0 < (s.invoices id).amount)
    (hEnv : env ⟨t, sender, (s.invoices id).freelancer,
      (s.invoices id).amount⟩ = true) :
    payInvoice env s sender id t =
      Except.ok (payMidState s sender id, [Event.InvoicePaid id sender],
        [⟨t, sender, (s.invoices id).freelancer, (s.invoices id).amount⟩]) ∧
    ((payMidState s sender id).invoices id).isPaid = true ∧
    ((payMidState s sender id).invoices id).client = sender := by
  have hne : (s.invoices id).amount ≠ 0 := by omega
  refine ⟨?_, ?_, ?_⟩
  · simp [payInvoice, hUnpaid, hne, hEnv]
  · simp [payMidState]
  · simp [payMidState]

/-- C2: the state the transfer callback runs in is `payMidState`, in
which the invoice is already flagged paid; any call to `payInvoice` on
the same identifier from that state — or from any state where the
invoice is paid — reverts with `AlreadyPaid`, and from reachable states
the paid flag, once true, survives every further transaction, so the
false→true transition happens at most once per invoice. -/
theorem pay_reentrancy_spec (s : SettleState) (sender : Address)
    (id : Nat) (_hUnpaid : (s.invoices id).isPaid = false)
    (_hAmt : 0 < (s.invoices id).amount) :
    ((payMidState s sender id).invoices id).isPaid = true ∧
    (∀ env' sender' t',
        payInvoice env' (payMidState s sender id) sender' id t' =
          Except.error Err.AlreadyPaid) ∧
    (∀ s₂, (s₂.invoices id).isPaid = true →
        ∀ env' sender' t',
          payInvoice env' s₂ sender' id t' =
            Except.error Err.AlreadyPaid) ∧
    (∀ s₂, Reachable s₂ → (s₂.invoices id).isPaid = true →
        ∀ op, ((applyOp s₂ op).invoices id).isPaid = true) := by
  have hmid : ((payMidState s sender id).invoices id).isPaid = true := by
    simp [payMidState]
  refine ⟨hmid, ?_, ?_, ?_⟩
  · intro env' sender' t'
    exact payInvoice_already_paid env' _ sender' id t' hmid
  · intro s₂ h₂ env' sender' t'
    exact payInvoice_already_paid env' s₂ sender' id t' h₂
  · intro s₂ hr h₂ op
    exact paid_monotone s₂ op id (stateInv_of_reachable hr) h₂

/-- C3: when the token reports transfer failure, `payInvoice` reverts
with `TransferRejected`; the transaction applies nothing — the state
seen by the caller is the original one and the invoice is still unpaid
(and the revert carries no event and no retained external call). -/
theorem pay_transfer_rejected_spec (env : TransferCall → Bool)
    (s : SettleState) (sender : Address) (id : Nat) (t : Address)
    (hUnpaid : (s.invoices id).isPaid = false)
    (hAmt : 0 < (s.invoices id).amount)
    (hEnv : env ⟨t, sender, (s.invoices id).freelancer,
      (s.invoices id).amount⟩ = false) :
    payInvoice env s sender id t = Except.error Err.TransferRejected ∧
    applyOp s (Op.pay env sender id t) = s ∧
    ((applyOp s (Op.pay env sender id t)).invoices id).isPaid = false := by
  have hne : (s.invoices id).amount ≠ 0 := by omega
  have herr : payInvoice env s sender id t =
      Except.error Err.TransferRejected := by
    simp [payInvoice, hUnpaid, hne, hEnv]
  refine ⟨herr, by simp [applyOp, herr], ?_⟩
  simp [applyOp, herr, hUnpaid]

/-- C4: paying an already-paid invoice reverts with `AlreadyPaid` for
every caller, token address and token behaviour, and the transaction
leaves the storage exactly as it was (no event, no transfer). -/
theorem pay_already_paid_spec (env : TransferCall → Bool)
    (s : SettleState) (sender : Address) (id : Nat) (t : Address)
    (hPaid : (s.invoices id).isPaid = true) :
    payInvoice env s sender id t = Except.error Err.AlreadyPaid ∧
    applyOp s (Op.pay env sender id t) = s := by
  have herr := payInvoice_already_paid env s sender id t hPaid
  exact ⟨herr, by simp [applyOp, herr]⟩

/-- C5: in any reachable state, paying an identifier whose stored amount
is zero (never created, or created with amount 0) reverts with
`NotFound` and changes nothing; and in every reachable state a paid
invoice has positive amount, so a zero-amount invoice can never be paid. -/
theorem pay_not_found_spec (env : TransferCall → Bool) (s : SettleState)
    (sender : Address) (id : Nat) (t : Address)
    (hReach : Reachable s) (hAmt : (s.invoices id).amount = 0) :
    payInvoice env s sender id t = Except.error Err.NotFound ∧
    applyOp s (Op.pay env sender id t) = s ∧
    (∀ j, (s.invoices j).isPaid = true → 0 < (s.invoices j).amount) := by
  obtain ⟨hz, hp⟩ := stateInv_of_reachable hReach
  have hUnpaid : (s.invoices id).isPaid = false := by
    by_contra hc
    have := hp id (by simpa using hc)
    omega
  have herr : payInvoice env s sender id t =
      Except.error Err.NotFound := by
    simp [payInvoice, hUnpaid, hAmt]
  exact ⟨herr, by simp [applyOp, herr], hp⟩

/-- C6: registration never reverts and, for every caller and inputs
(amount 0 included), returns the incremented counter as the new id,
stores exactly the supplied fields with `client` (payer) unset and
`isPaid = false`, emits `InvoiceCreated(id, payee, amount)`, and
`getInvoice` on the fresh id immediately returns that record. -/
theorem register_spec (s : SettleState) (sender : Address)
    (a d : Nat) (u : String) :
    (registerInvoice s sender a d u).2.2 = s.invoiceCount + 1 ∧
    (registerInvoice s sender a d u).1.invoiceCount
        = s.invoiceCount + 1 ∧
    (registerInvoice s sender a d u).2.1 =
      [Event.InvoiceCreated (s.invoiceCount + 1) sender a] ∧
    getInvoice (registerInvoice s sender a d u).1
        (registerInvoice s sender a d u).2.2 =
      { freelancer := sender, client := 0, amount := a, dueDate := d,
        isPaid := false, invoiceURI := u } := by
  refine ⟨rfl, rfl, rfl, ?_⟩
  simp [registerInvoice, getInvoice]

/-- C9: `getInvoice` is pure (it is a function of the state, mutating
nothing) and returns the full stored record; on a reachable state, an
identifier never created (`0`, or above the counter) yields the
all-zero record — zero addresses, zero amount and due date, `isPaid`
false, empty URI — with no existence signal. -/
theorem getInvoice_spec (s : SettleState) (id : Nat)
    (hReach : Reachable s) :
    getInvoice s id = s.invoices id ∧
    ((id = 0 ∨ s.invoiceCount < id) →
      getInvoice s id =
        { freelancer := 0, client := 0, amount := 0, dueDate := 0,
          isPaid := false, invoiceURI := "" }) := by
  refine ⟨rfl, ?_⟩
  intro h
  exact (stateInv_of_reachable hReach).1 id h

/-- C7: `registerInvoice` returns the incremented counter and stores it
back, no transaction ever decreases the counter, after any transaction
sequence from deployment the counter equals the number of registrations
performed (so the ids handed out are 1, 2, 3, ... gap-free, with pay
attempts — failed or successful — changing nothing), and the
creation-time fields of an assigned slot are never reassigned. -/
theorem register_ids_spec :
    (∀ (s : SettleState) (sender : Address) (a d : Nat) (u : String),
        (registerInvoice s sender a d u).2.2 = s.invoiceCount + 1 ∧
        (registerInvoice s sender a d u).1.invoiceCount
          = s.invoiceCount + 1) ∧
    (∀ (s : SettleState) (op : Op),
        s.invoiceCount ≤ (applyOp s op).invoiceCount) ∧
    (∀ ops : List Op,
        (ops.foldl applyOp SettleState.init).invoiceCount
          = ops.countP isRegisterOp) ∧
    (∀ (s : SettleState) (op : Op) (j : Nat), j ≤ s.invoiceCount →
        ((applyOp s op).invoices j).freelancer
          = (s.invoices j).freelancer ∧
        ((applyOp s op).invoices j).amount = (s.invoices j).amount ∧
        ((applyOp s op).invoices j).dueDate = (s.invoices j).dueDate ∧
        ((applyOp s op).invoices j).invoiceURI
          = (s.invoices j).invoiceURI) := by
  refine ⟨fun s sender a d u => ⟨rfl, rfl⟩, ?_, ?_, immutable_preserved⟩
  · intro s op
    rw [invoiceCount_applyOp]
    omega
  · intro ops
    rw [invoiceCount_foldl]
    simp [SettleState.init]

/-- C8: frame of a successful pay: only `isPaid` and `client` of the
paid slot change — the counter, every other slot, and the paid slot's
`freelancer`, `amount`, `dueDate` and `invoiceURI` are untouched; and
across any whole transaction sequence an existing slot keeps its
creation-time fields, so records are never deleted or overwritten. -/
theorem pay_frame_spec :
    (∀ (env : TransferCall → Bool) (s : SettleState) (sender : Address)
        (id : Nat) (t : Address) (s' : SettleState) (evs : List Event)
        (calls : List TransferCall),
        payInvoice env s sender id t = Except.ok (s', evs, calls) →
        s'.invoiceCount = s.invoiceCount ∧
        (∀ j, j ≠ id → s'.invoices j = s.invoices j) ∧
        (s'.invoices id).freelancer = (s.invoices id).freelancer ∧
        (s'.invoices id).amount = (s.invoices id).amount ∧
        (s'.invoices id).dueDate = (s.invoices id).dueDate ∧
        (s'.invoices id).invoiceURI = (s.invoices id).invoiceURI ∧
        (s'.invoices id).isPaid = true ∧
        (s'.invoices id).client = sender) ∧
    (∀ (ops : List Op) (s : SettleState) (j : Nat), j ≤ s.invoiceCount →
        ((ops.foldl applyOp s).invoices j).freelancer
          = (s.invoices j).freelancer ∧
        ((ops.foldl applyOp s).invoices j).amount
          = (s.invoices j).amount ∧
        ((ops.foldl applyOp s).invoices j).dueDate
          = (s.invoices j).dueDate ∧
        ((ops.foldl applyOp s).invoices j).invoiceURI
          = (s.invoices j).invoiceURI) := by
  refine ⟨?_, immutable_foldl⟩
  intro env s sender id t s' evs calls h
  obtain ⟨hs', -, -, -, -, -⟩ := payInvoice_ok_inv h
  subst hs'
  refine ⟨rfl, ?_, ?_, ?_, ?_, ?_, ?_, ?_⟩
  · intro j hj
    simp [payMidState, hj]
  all_goals simp [payMidState]

/-- C10: the ledger is chosen by the caller at call time: for an unpaid
existing invoice and any address `t`, every successful run of
`payInvoice` through `t` performs exactly the one `transferFrom` on `t`
moving `amount` from caller to the stored payee; the call succeeds iff
`t`'s `transferFrom` returns true, in which case the invoice is marked
paid and `InvoicePaid` is emitted — for whatever `t` the payer names. -/
theorem pay_token_choice_spec (env : TransferCall → Bool)
    (s : SettleState) (sender : Address) (id : Nat)
    (hUnpaid : (s.invoices id).isPaid = false)
    (hAmt : 0 < (s.invoices id).amount) :
    ∀ t : Address,
      (∀ s' evs calls,
          payInvoice env s sender id t = Except.ok (s', evs, calls) →
          calls = [⟨t, sender, (s.invoices id).freelancer,
            (s.invoices id).amount⟩]) ∧
      ((∃ r, payInvoice env s sender id t = Except.ok r) ↔
        env ⟨t, sender, (s.invoices id).freelancer,
          (s.invoices id).amount⟩ = true) ∧
      (env ⟨t, sender, (s.invoices id).freelancer,
          (s.invoices id).amount⟩ = true →
        payInvoice env s sender id t =
          Except.ok (payMidState s sender id,
            [Event.InvoicePaid id sender],
            [⟨t, sender, (s.invoices id).freelancer,
              (s.invoices id).amount⟩])) := by
  intro t
  have hne : (s.invoices id).amount ≠ 0 := by omega
  refine ⟨?_, ?_, ?_⟩
  · intro s' evs calls h
    exact (payInvoice_ok_inv h).2.2.1
  · constructor
    · rintro ⟨r, hr⟩
      obtain ⟨s', evs, calls⟩ := r
      exact (payInvoice_ok_inv hr).2.2.2.2.2
    · intro hEnv
      refine ⟨(payMidState s sender id, [Event.InvoicePaid id sender],
        [⟨t, sender, (s.invoices id).freelancer,
          (s.invoices id).amount⟩]), ?_⟩
      simp [payInvoice, hUnpaid, hne, hEnv]
  · intro hEnv
    simp [payInvoice, hUnpaid, hne, hEnv]

/-- Concrete token environment for witnesses: every transfer succeeds. -/
def envOK : TransferCall → Bool := fun _ => true

/-- Concrete token environment for witnesses: every transfer fails
(e.g. allowance below the amount). -/
def envFail : TransferCall → Bool := fun _ => false

/-- Concrete state: address 5 has registered invoice 1 over 500000000
units (500 at 6-decimal scale), due at 86400, URI "ipfs://QmExample". -/
def sReg : SettleState :=
  applyOp SettleState.init (Op.register 5 500000000 86400 "ipfs://QmExample")

lemma sReg_reachable : Reachable sReg :=
  Reachable.step (Op.register 5 500000000 86400 "ipfs://QmExample")
    Reachable.init

/-- Concrete state: invoice 1 of `sReg` paid by address 7 through the
token at address 3. -/
def sPaid : SettleState := applyOp sReg (Op.pay envOK 7 1 3)

/-- C1 witness: in `sReg`, caller 7 pays invoice 1 through token 3. -/
theorem pay_success_witness :
    (sReg.invoices 1).isPaid = false ∧ 0 < (sReg.invoices 1).amount ∧
    (payInvoice envOK sReg 7 1 3 =
      Except.ok (payMidState sReg 7 1, [Event.InvoicePaid 1 7],
        [⟨3, 7, (sReg.invoices 1).freelancer,
          (sReg.invoices 1).amount⟩]) ∧
     ((payMidState sReg 7 1).invoices 1).isPaid = true ∧
     ((payMidState sReg 7 1).invoices 1).client = 7) :=
  ⟨by decide, by decide,
   pay_success_spec envOK sReg 7 1 3 (by decide) (by decide) (by decide)⟩

/-- C2 witness: the mid-pay state of invoice 1 in `sReg` is flagged paid
and a reentrant pay on it from caller 9 through token 4 reverts. -/
theorem pay_reentrancy_witness :
    ((payMidState sReg 7 1).invoices 1).isPaid = true ∧
    payInvoice envOK (payMidState sReg 7 1) 9 1 4 =
      Except.error Err.AlreadyPaid :=
  ⟨(pay_reentrancy_spec sReg 7 1 (by decide) (by decide)).1,
   (pay_reentrancy_spec sReg 7 1 (by decide) (by decide)).2.1 envOK 9 4⟩

/-- C3 witness: a rejected transfer on invoice 1 of `sReg` reverts with
`TransferRejected` and leaves the invoice unpaid. -/
theorem pay_transfer_rejected_witness :
    payInvoice envFail sReg 7 1 3 = Except.error Err.TransferRejected ∧
    applyOp sReg (Op.pay envFail 7 1 3) = sReg ∧
    ((applyOp sReg (Op.pay envFail 7 1 3)).invoices 1).isPaid = false :=
  pay_transfer_rejected_spec envFail sReg 7 1 3
    (by decide) (by decide) (by decide)

/-- C4 witness: re-paying invoice 1 of `sPaid` reverts with
`AlreadyPaid` and does not change the state. -/
theorem pay_already_paid_witness :
    payInvoice envOK sPaid 9 1 3 = Except.error Err.AlreadyPaid ∧
    applyOp sPaid (Op.pay envOK 9 1 3) = sPaid :=
  pay_already_paid_spec envOK sPaid 9 1 3 (by decide)

/-- C5 witness: paying the never-created identifier 2 in `sReg` reverts
with `NotFound` and changes nothing. -/
theorem pay_not_found_witness :
    payInvoice envOK sReg 9 2 3 = Except.error Err.NotFound ∧
    applyOp sReg (Op.pay envOK 9 2 3) = sReg ∧
    (∀ j, (sReg.invoices j).isPaid = true → 0 < (sReg.invoices j).amount) :=
  pay_not_found_spec envOK sReg 9 2 3 sReg_reachable (by decide)

/-- C6 witness: registering on the fresh contract stores exactly the
supplied record at id 1. -/
theorem register_witness :
    getInvoice
        (registerInvoice SettleState.init 5 500000000 86400
          "ipfs://QmExample").1
        (registerInvoice SettleState.init 5 500000000 86400
          "ipfs://QmExample").2.2 =
      { freelancer := 5, client := 0, amount := 500000000,
        dueDate := 86400, isPaid := false,
        invoiceURI := "ipfs://QmExample" } :=
  (register_spec SettleState.init 5 500000000 86400
    "ipfs://QmExample").2.2.2

/-- C7 witness: a further registration on `sReg` returns id 2, and a
register/pay/register sequence from deployment ends with counter 2. -/
theorem register_ids_witness :
    (registerInvoice sReg 6 250 100 "ipfs://x").2.2
        = sReg.invoiceCount + 1 ∧
    ([Op.register 5 1 2 "a", Op.pay envOK 7 1 3,
        Op.register 6 4 5 "b"].foldl applyOp SettleState.init).invoiceCount
      = 2 := by
  refine ⟨(register_ids_spec.1 sReg 6 250 100 "ipfs://x").1, ?_⟩
  rw [register_ids_spec.2.2.1 [Op.register 5 1 2 "a",
    Op.pay envOK 7 1 3, Op.register 6 4 5 "b"]]
  decide

/-- C8 witness: the successful pay of invoice 1 in `sReg` keeps the
counter and the invoice's amount. -/
theorem pay_frame_witness :
    (payMidState sReg 7 1).invoiceCount = sReg.invoiceCount ∧
    ((payMidState sReg 7 1).invoices 1).amount
      = (sReg.invoices 1).amount := by
  have h := pay_frame_spec.1 envOK sReg 7 1 3 (payMidState sReg 7 1)
    [Event.InvoicePaid 1 7]
    [⟨3, 7, (sReg.invoices 1).freelancer, (sReg.invoices 1).amount⟩] rfl
  exact ⟨h.1, h.2.2.2.1⟩

/-- C9 witness: in `sReg`, the never-created identifier 2 reads as the
all-zero record. -/
theorem getInvoice_witness :
    getInvoice sReg 2 =
      { freelancer := 0, client := 0, amount := 0, dueDate := 0,
        isPaid := false, invoiceURI := "" } :=
  (getInvoice_spec sReg 2 sReg_reachable).2 (by decide)

/-- C10 witness: invoice 1 of `sReg` settles through the arbitrary token
address 42 iff that token's transfer succeeds. -/
theorem pay_token_choice_witness :
    (∃ r, payInvoice envOK sReg 7 1 42 = Except.ok r) ∧
    payInvoice envOK sReg 7 1 42 =
      Except.ok (payMidState sReg 7 1, [Event.InvoicePaid 1 7],
        [⟨42, 7, (sReg.invoices 1).freelancer,
          (sReg.invoices 1).amount⟩]) := by
  have h := pay_token_choice_spec envOK sReg 7 1 (by decide) (by decide) 42
  exact ⟨h.2.1.mpr (by decide), h.2.2 (by decide)⟩
